import Mathlib

/-!
# Verification of papermerge-core page-mutation views

Shallow embedding of `papermerge/core/views/pages.py` (and the serializers in
`papermerge/core/serializers/page.py`) of engineervix/papermerge-core.

A document version is modelled by its binary payload (a list of PDF pages,
position `i` of the list holding the 1-based page `i+1`) together with the list
of per-page extracted texts.  The pure pikepdf-level transforms
(`remove_pdf_pages`, `reorder_pdf_pages`, `rotate_pdf_pages`,
`insert_pdf_pages`) are embedded as functions on lists; a pikepdf
`pages.p(n)` lookup of an out-of-range 1-based index raises, which is embedded
as `Option` failure.  The view-level flows (`perform_destroy`, `delete_pages`,
`reorder_pages`, `rotate_pages`, `move_to_folder`, `move_to_document`) are
embedded as `Except`-valued functions; `APIBadRequest` and uncaught python
exceptions are the error cases.

Parts of the repository that the views call but that are not part of the
source under verification (the `core/lib/utils` helpers and the
`Document`/`DocumentVersion` model methods `version_bump`,
`version_bump_from_pages`, `update_text_field`) are modelled from the spec;
each such definition carries a doc comment saying so.
-/

namespace Papermerge

/-- A page of a binary PDF payload: opaque content plus the rotation
attribute (degrees) that `pikepdf.Page.rotate(angle, relative=True)` adds to. -/
structure PdfPage where
  content : String
  rotation : Int
deriving DecidableEq, Repr

/-- A `Page` row as seen by the views: its 1-based `number` within its version
and its `is_archived` flag (true when its document version is not the
document's current version). -/
structure Pg where
  number : Nat
  isArchived : Bool
deriving DecidableEq, Repr

/-- The data of a document version the flows read: binary payload and the
per-page `text` fields, both listed in ascending page-number order. -/
structure VersionState where
  payload : List PdfPage
  texts : List String
deriving DecidableEq, Repr

/-- A freshly produced document version: payload written for it, the per-page
`text` fields assigned by `update_text_field`, and the aggregate version
`text` field. -/
structure NewVersion where
  payload : List PdfPage
  pageTexts : List String
  text : String
deriving DecidableEq, Repr

/-- Error outcomes of a view flow.  `archivedPage` and `tooFewPages` are the
two `APIBadRequest` raises of `pages.py` ('Deleting archived page is not
allowed' / 'Document version must have at least one page');
`invalidReorder` is the rejection of a non-permutation reorder assignment
(spec §4.2/§7); `badIndex` is an uncaught pikepdf index error or a
`KeyError` on the page-number dictionary; `emptySelection` is the uncaught
`AttributeError` when `queryset.first()` returns `None`. -/
inductive ApiError where
  | archivedPage
  | tooFewPages
  | invalidReorder
  | invalidRequest
  | badIndex
  | emptySelection
deriving DecidableEq, Repr

/-- `pikepdf` removal of the single 1-based page `p`; raises (`none`) when the
index is out of range. -/
def removeOne (pdf : List α) (p : Nat) : Option (List α) :=
  if 1 ≤ p ∧ p ≤ pdf.length then some (pdf.take (p - 1) ++ pdf.drop p) else none

/-- The loop of `remove_pdf_pages` (`pages.py` lines 183-186): each page
number is compensated by the count `c` of pages already removed. -/
def removePdfPagesFrom (pdf : List α) : List Nat → Nat → Option (List α)
  | [], _ => some pdf
  | n :: rest, c =>
    match removeOne pdf (n - c) with
    | none => none
    | some pdf2 => removePdfPagesFrom pdf2 rest (c + 1)

/-- `remove_pdf_pages` (`pages.py` lines 173-192): strips the pages whose
1-based numbers are listed in `nums` from the old version's payload.  The
`_deleted_count` counter starts at `0`. -/
def remove_pdf_pages (pdf : List α) (nums : List Nat) : Option (List α) :=
  removePdfPagesFrom pdf nums 0

/-- Specification-side description of stripping: keep exactly the pages whose
1-based number (counted from `k`) is not in `nums`, in their original order. -/
def survivorsFrom (nums : List Nat) : Nat → List α → List α
  | _, [] => []
  | k, a :: tl =>
    if k ∈ nums then survivorsFrom nums (k + 1) tl
    else a :: survivorsFrom nums (k + 1) tl

/-- `collect_text_streams` (`pages.py` lines 78-86): builds the dictionary
`{page.number: page}` of the version's pages and reads
`pages_map[number].text` for each requested number; a number that is not a
page of the version raises `KeyError` (`none`).  `texts` lists the version's
page texts in ascending page order, so page `n` has text `texts[n-1]` and the
dictionary keys are `1..texts.length`. -/
def collect_text_streams (texts : List String) : List Nat → Option (List String)
  | [] => some []
  | n :: rest =>
    match n with
    | 0 => none
    | m + 1 =>
      match texts[m]?, collect_text_streams texts rest with
      | some t, some ts => some (t :: ts)
      | _, _ => none

/-- Modelled from the spec: `DocumentVersion.update_text_field` is a model
method and the models are not among the sources under verification.  Spec
§4.4 (Text channel): store each gathered stream as the individual text of the
new version's page at the corresponding new position, and concatenate the
per-page texts in new-position order with a single-space separator into the
version's aggregate text field. -/
def update_text_field (streams : List String) : List String × String :=
  (streams, String.intercalate " " streams)

/-- `reuse_text_field` (`pages.py` lines 89-97): gathers the old version's
page texts at the old numbers of the page map (`item[1]`) and hands them to
`update_text_field` of the new version. -/
def reuse_text_field (oldTexts : List String) (pageMap : List (Nat × Nat)) :
    Option (List String × String) :=
  (collect_text_streams oldTexts (pageMap.map (·.2))).map update_text_field

/-- Modelled from the spec: `get_assigns_after_delete` lives in
`core/lib/utils`, which is not among the sources under verification.  Spec
§4.2 (delete map): survivors, taken in ascending original order, are
renumbered consecutively from 1, producing (new_number, old_number) pairs. -/
def get_assigns_after_delete (totalPages : Nat) (deletedPages : List Nat) :
    List (Nat × Nat) :=
  let survivors := (List.range' 1 totalPages).filter
    (fun n => decide (n ∉ deletedPages))
  (List.range' 1 survivors.length).zip survivors

/-- Python `range(a, b)` with step 1 over integers. -/
def intRange (a b : Int) : List Int :=
  (List.range (b - a).toNat).map (fun i => a + i)

/-- `collect_text_streams` applied to integer page numbers, as in
`reuse_text_field_multi` where segment numbers are computed by integer
arithmetic involving `position`; the dictionary keys are `1..texts.length`,
so any number below 1 raises `KeyError`. -/
def collectTextStreamsInt (texts : List String) (nums : List Int) :
    Option (List String) :=
  collect_text_streams texts (nums.map (fun n => if n < 1 then 0 else n.toNat))

/-- `reuse_text_field_multi` (`pages.py` lines 100-141), with the source's
range bounds kept verbatim: first segment `[(pos, pos) for pos in
range(1, position + 1)]` gathered from the destination's old version; middle
segment `zip(range(position + 1, pages.count() + 1), page numbers)` gathered
from the source's old version; third segment `[(pos, pos - position -
pages.count()) for pos in range(position + 1 + pages.count(),
dst_new_total_pages + 1)]` gathered from the destination's old version.
Returns the gathered streams handed to `update_text_field` of the
destination's new version. -/
def reuse_text_field_multi (srcTexts dstOldTexts : List String)
    (position : Int) (pageNumbers : List Nat) (dstNewTotal : Nat) :
    Option (List String) :=
  let k : Int := pageNumbers.length
  let seg1 := collectTextStreamsInt dstOldTexts (intRange 1 (position + 1))
  let midPairs := (intRange (position + 1) (k + 1)).zip pageNumbers
  let seg2 := collect_text_streams srcTexts (midPairs.map (·.2))
  let seg3Nums := (intRange (position + 1 + k) ((dstNewTotal : Int) + 1)).map
    (fun pos => pos - position - k)
  let seg3 := collectTextStreamsInt dstOldTexts seg3Nums
  match seg1, seg2, seg3 with
  | some a, some b, some c => some (a ++ b ++ c)
  | _, _, _ => none

/-- A page-reorder assignment as sent to the reorder endpoint
(`PageReorderSerializer`): page id (a string of at most 32 characters),
`old_number` and `new_number`, both 1-based. -/
structure ReorderItem where
  id : String
  old_number : Nat
  new_number : Nat
deriving DecidableEq, Repr

/-- `PagesReorderSerializer` validation (`serializers/page.py` lines 29-43):
purely structural — each item carries a `CharField(max_length=32)` id and two
`IntegerField`s; no permutation requirement is expressed anywhere in it. -/
def pagesReorderSerializerValid (pagesData : List ReorderItem) : Bool :=
  pagesData.all (fun it => it.id.length ≤ 32)

/-- Insertion step of a stable insertion sort on `new_number`: an element is
placed before the first later-sorted element with a key not smaller than its
own, so that elements with equal keys keep their original relative order —
the same output as python's stable `sorted(pages_data, key=new_number)`. -/
def insertByNewNumber (x : ReorderItem) : List ReorderItem → List ReorderItem
  | [] => [x]
  | y :: ys =>
    if x.new_number ≤ y.new_number then x :: y :: ys
    else y :: insertByNewNumber x ys

/-- Stable sort of the reorder assignments by `new_number`
(`sorted(pages_data, key=lambda item: item['new_number'])`). -/
def sortByNewNumber : List ReorderItem → List ReorderItem
  | [] => []
  | x :: xs => insertByNewNumber x (sortByNewNumber xs)

/-- The append loop of `reorder_pdf_pages`: for each assignment in sorted
order, fetch the old payload's page at `old_number` (`src.pages.p`, raising
on an out-of-range 1-based index) and append it to the fresh payload. -/
def appendByMap (payload : List α) : List ReorderItem → Option (List α)
  | [] => some []
  | it :: rest =>
    match it.old_number with
    | 0 => none
    | m + 1 =>
      match payload[m]?, appendByMap payload rest with
      | some pg, some acc => some (pg :: acc)
      | _, _ => none

/-- `reorder_pdf_pages` (`pages.py` lines 195-214): sorts the assignments by
`new_number` (stable) and appends, for each, the old payload's page at its
`old_number` to a new empty payload, saved as the new version's payload. -/
def reorder_pdf_pages (payload : List α) (pagesData : List ReorderItem) :
    Option (List α) :=
  appendByMap payload (sortByNewNumber pagesData)

/-- A rotate request item: the 1-based number of the targeted page, the angle,
and whether the page belongs to an archived version.  The pairing of each
page's number with its requested angle is done by `annotate_page_data` (in
`core/lib/utils`, not among the sources); the item carries its output. -/
structure RotateItem where
  number : Nat
  angle : Int
  isArchived : Bool
deriving DecidableEq, Repr

/-- `rotate_pdf_pages` (`pages.py` lines 217-238): opens the old payload and,
for each item, rotates the page at the item's 1-based number by the item's
angle relative to its current orientation
(`page.rotate(angle, relative=True)`); saves as the new version's payload. -/
def rotate_pdf_pages (payload : List PdfPage) :
    List RotateItem → Option (List PdfPage)
  | [] => some payload
  | it :: rest =>
    if it.number = 0 then none
    else
      match payload[it.number - 1]? with
      | none => none
      | some pg =>
          rotate_pdf_pages
            (payload.set (it.number - 1)
              ⟨pg.content, pg.rotation + it.angle⟩) rest

/-- Python list `insert(i, x)` semantics, which `pikepdf`'s `PageList.insert`
follows: a negative index counts from the end and is clamped at 0; an index
past the end appends. -/
def pyInsert (l : List α) (i : Int) (x : α) : List α :=
  let idx : Nat := if i < 0 then (l.length + i).toNat else min i.toNat l.length
  l.take idx ++ x :: l.drop idx

/-- The insertion loop of `insert_pdf_pages`: each source page
(`src_old_pdf.pages.p(page_number)`, raising on an out-of-range 1-based
index) is inserted into the destination at `position + _inserted_count`. -/
def insertLoop (srcPayload : List α) (position : Int) :
    List α → List Nat → Nat → Option (List α)
  | dst, [], _ => some dst
  | dst, n :: rest, cnt =>
    match n with
    | 0 => none
    | m + 1 =>
      match srcPayload[m]? with
      | none => none
      | some pg =>
          insertLoop srcPayload position
            (pyInsert dst (position + (cnt : Int)) pg) rest (cnt + 1)

/-- `insert_pdf_pages` (`pages.py` lines 144-170): opens the source's and
destination's old payloads and inserts the named source pages, in the given
order, into the destination at `position + _inserted_count`; saves the result
as the destination's new payload. -/
def insert_pdf_pages (srcPayload dstPayload : List α)
    (pageNumbers : List Nat) (position : Int) : Option (List α) :=
  insertLoop srcPayload position dstPayload pageNumbers 0

/-- Paths of payload files under the storage root
(`abs_path(version.document_path.url)`); distinct versions have distinct
paths. -/
abbrev StorePath := Nat

/-- The payload-file store, contents by path. -/
abbrev Store := StorePath → Option (List PdfPage)

/-- `pdf.save(abs_path(new_version.document_path.url))` preceded by
`os.makedirs(dirname, exist_ok=True)`: writes only the named path. -/
def writeStore (store : Store) (path : StorePath) (payload : List PdfPage) :
    Store :=
  fun p => if p = path then some payload else store p

/-- `remove_pdf_pages` at the storage level: `Pdf.open` the old version's
payload, strip pages in memory, save only to the new version's path. -/
def remove_pdf_pages_io (store : Store) (oldPath newPath : StorePath)
    (nums : List Nat) : Option Store :=
  match store oldPath with
  | none => none
  | some pdf =>
    match remove_pdf_pages pdf nums with
    | none => none
    | some out => some (writeStore store newPath out)

/-- `rotate_pdf_pages` at the storage level: open the old version's payload,
rotate pages in memory, save only to the new version's path. -/
def rotate_pdf_pages_io (store : Store) (oldPath newPath : StorePath)
    (items : List RotateItem) : Option Store :=
  match store oldPath with
  | none => none
  | some pdf =>
    match rotate_pdf_pages pdf items with
    | none => none
    | some out => some (writeStore store newPath out)

/-- `reorder_pdf_pages` at the storage level: open the old version's payload,
build the reordered payload in a fresh `Pdf.new()`, save only to the new
version's path. -/
def reorder_pdf_pages_io (store : Store) (oldPath newPath : StorePath)
    (pagesData : List ReorderItem) : Option Store :=
  match store oldPath with
  | none => none
  | some pdf =>
    match reorder_pdf_pages pdf pagesData with
    | none => none
    | some out => some (writeStore store newPath out)

/-- `insert_pdf_pages` at the storage level: open the source's and the
destination's old payloads, insert in memory, save only to the destination's
new version path. -/
def insert_pdf_pages_io (store : Store)
    (srcPath dstOldPath dstNewPath : StorePath)
    (pageNumbers : List Nat) (position : Int) : Option Store :=
  match store srcPath with
  | none => none
  | some srcPdf =>
    match store dstOldPath with
    | none => none
    | some dstPdf =>
      match insert_pdf_pages srcPdf dstPdf pageNumbers position with
      | none => none
      | some out => some (writeStore store dstNewPath out)

/-- `PageView.perform_destroy` (`pages.py` lines 326-364): single-page
delete.  Rejects when the page is archived ('Deleting archived page is not
allowed'); performs no minimum-page-count check; otherwise bumps a version
with `page_count = old.page_count - 1` (`version_bump` is a model method,
modelled from spec §4.1: it creates the new current version with the
requested number of placeholder pages), strips the page from the payload and
replicates the text channel through the delete page map. -/
def perform_destroy (old : VersionState) (page : Pg) :
    Except ApiError NewVersion :=
  if page.isArchived then Except.error ApiError.archivedPage
  else
    match remove_pdf_pages old.payload [page.number] with
    | none => Except.error ApiError.badIndex
    | some newPayload =>
      match reuse_text_field old.texts
          (get_assigns_after_delete old.texts.length [page.number]) with
      | none => Except.error ApiError.badIndex
      | some tf => Except.ok ⟨newPayload, tf.1, tf.2⟩

/-- `PagesView.delete_pages` (`pages.py` lines 387-432): multi-page delete.
The loop rejects as soon as any targeted page is archived; an empty
selection then crashes on `first_page.document_version` (`first_page` is
`None`); deleting all pages (or more) is rejected with 'Document version
must have at least one page'.  Pages of a queryset are listed in ascending
page-number order (spec §3 ordered Pages, §6 ordered listing by number). -/
def delete_pages (old : VersionState) (pages : List Pg) :
    Except ApiError NewVersion :=
  if pages.any (·.isArchived) then Except.error ApiError.archivedPage
  else if pages.isEmpty then Except.error ApiError.emptySelection
  else if old.texts.length ≤ pages.length then Except.error ApiError.tooFewPages
  else
    match remove_pdf_pages old.payload (pages.map (·.number)) with
    | none => Except.error ApiError.badIndex
    | some newPayload =>
      match reuse_text_field old.texts
          (get_assigns_after_delete old.texts.length (pages.map (·.number))) with
      | none => Except.error ApiError.badIndex
      | some tf => Except.ok ⟨newPayload, tf.1, tf.2⟩

/-- `PagesRotateView.rotate_pages` (`pages.py` lines 519-545): bumps a new
version with the same page count (`version_bump()`, modelled from spec §4.5
Rotate: Bump(same count)), rotates the listed pages in the payload, and
replicates text through the identity page map `[(page.number, page.number)
for page in old_version.pages.all()]`.  No archived-page check is made. -/
def rotate_pages (old : VersionState) (items : List RotateItem) :
    Except ApiError NewVersion :=
  if items.isEmpty then Except.error ApiError.emptySelection
  else
    match rotate_pdf_pages old.payload items with
    | none => Except.error ApiError.badIndex
    | some newPayload =>
      match reuse_text_field old.texts
          ((List.range' 1 old.texts.length).map (fun n => (n, n))) with
      | none => Except.error ApiError.badIndex
      | some tf => Except.ok ⟨newPayload, tf.1, tf.2⟩

/-- Modelled from the spec: `get_reordered_list` lives in `core/lib/utils`,
which is not among the sources under verification.  Spec §4.2 (reorder map):
the output covers all of 1..total_pages, giving for each new position the
old position assigned to it; the set of new_number values must be exactly
{1..total_pages} with no duplicate or missing value, else the assignment is
rejected as invalid (not silently clamped). -/
def get_reordered_list (pagesData : List ReorderItem) (pageCount : Nat) :
    Except ApiError (List Nat) :=
  if pagesData.length = pageCount
      ∧ ∀ n ∈ List.range' 1 pageCount,
          (pagesData.filter (fun it => decide (it.new_number = n))).length = 1 then
    Except.ok ((List.range' 1 pageCount).map (fun n =>
      ((pagesData.find? (fun it => decide (it.new_number = n))).map
        (·.old_number)).getD 0))
  else Except.error ApiError.invalidReorder

/-- Outcome of the reorder view: the view creates the new version
(`version_bump`) and writes its reordered payload before the text stage
runs, so a failure of the text stage leaves the new version and payload
already produced (spec §7: no rollback); `textStage` records the later
stage's result. -/
structure ReorderOutcome where
  newPayload : List PdfPage
  textStage : Except ApiError (List String × String)
deriving Repr

/-- `PagesReorderView.reorder_pages` (`pages.py` lines 457-494): bumps a new
version with the same page count, writes the reordered payload, then builds
the page map `zip(range(1, page_count + 1), get_reordered_list(...))` and
replicates the text channel.  No permutation validation happens before the
bump and the binary reorder; no archived-page check is made. -/
def reorder_pages (old : VersionState) (pagesData : List ReorderItem) :
    Except ApiError ReorderOutcome :=
  if pagesData.isEmpty then Except.error ApiError.emptySelection
  else
    match reorder_pdf_pages old.payload pagesData with
    | none => Except.error ApiError.badIndex
    | some newPayload =>
      Except.ok
        { newPayload := newPayload
          textStage :=
            match get_reordered_list pagesData old.texts.length with
            | Except.error e => Except.error e
            | Except.ok reorderedList =>
              match reuse_text_field old.texts
                  ((List.range' 1 old.texts.length).zip reorderedList) with
              | none => Except.error ApiError.badIndex
              | some tf => Except.ok tf }

/-- The per-page loop of `move_to_folder_single_paged` (`pages.py` lines
652-672): one new document per moved page, each created with that single
page (`version_bump_from_pages(pages=[page])`, modelled from spec §4.1:
pages seeded in the given order) and text replicated through the map
`[(1, page.number)]` from the page's old version. -/
def singlePagedDocs (texts : List String) :
    List Pg → Option (List (List String))
  | [] => some []
  | p :: rest =>
    match collect_text_streams texts [p.number], singlePagedDocs texts rest with
    | some ts, some ds => some (ts :: ds)
    | _, _ => none

/-- `PagesMoveToFolderView.move_to_folder` (`pages.py` lines 573-672): runs
the delete flow on the source (version_bump to `old - moved` pages, payload
strip, delete-map text replication — with no archived or minimum-count
validation), then creates the destination documents:
`single_page=True` runs `move_to_folder_single_paged` (one new single-page
document per moved page); `single_page=False` runs
`move_to_folder_multi_paged` (one new document whose version is
`version_bump_from_pages` over all moved pages, text replicated through
`zip(range(1, count + 1), sorted page numbers)`).  Each created document is
represented by its page-text list; artifacts are copied 1:1 at the storage
level. -/
def move_to_folder (src : VersionState) (pages : List Pg)
    (singlePage : Bool) :
    Except ApiError (NewVersion × List (List String)) :=
  if pages.isEmpty then Except.error ApiError.emptySelection
  else
    match remove_pdf_pages src.payload (pages.map (·.number)) with
    | none => Except.error ApiError.badIndex
    | some newPayload =>
      match reuse_text_field src.texts
          (get_assigns_after_delete src.texts.length (pages.map (·.number))) with
      | none => Except.error ApiError.badIndex
      | some tf =>
        let srcNew : NewVersion := ⟨newPayload, tf.1, tf.2⟩
        if singlePage then
          match singlePagedDocs src.texts pages with
          | none => Except.error ApiError.badIndex
          | some docs => Except.ok (srcNew, docs)
        else
          match collect_text_streams src.texts (pages.map (·.number)) with
          | none => Except.error ApiError.badIndex
          | some ts => Except.ok (srcNew, [ts])

/-- Result of `move_to_document`: the source's new version, the payload
written for the destination's new version, the artifact-copy map
`[(p.number, p.number + position) for p in pages]` handed to
`copy_pages_data` with `old_version=dst_old_version` (each pair copies the
destination's old artifact at the first component into the new slot at the
second), and the text streams assigned to the destination's new version. -/
structure MoveToDocResult where
  srcNew : NewVersion
  dstNewPayload : List PdfPage
  dstArtifactMap : List (Nat × Int)
  dstPageTexts : List String
  dstText : String
deriving Repr

/-- `PagesMoveToDocumentView.move_to_document` (`pages.py` lines 698-765):
runs the delete flow on the source (no archived or count validation), bumps
the destination to `dst_old.pages.count() + pages.count()` pages
(`version_bump`, modelled from spec §4.1), inserts the moved pages into the
destination payload at `position`, copies artifacts through
`[(p.number, p.number + position)]` from the destination's old version, and
replicates the destination text channel with `reuse_text_field_multi`. -/
def move_to_document (src dst : VersionState) (pages : List Pg)
    (position : Int) : Except ApiError MoveToDocResult :=
  if pages.isEmpty then Except.error ApiError.emptySelection
  else
    match remove_pdf_pages src.payload (pages.map (·.number)) with
    | none => Except.error ApiError.badIndex
    | some srcNewPayload =>
      match reuse_text_field src.texts
          (get_assigns_after_delete src.texts.length (pages.map (·.number))) with
      | none => Except.error ApiError.badIndex
      | some stf =>
        match insert_pdf_pages src.payload dst.payload
            (pages.map (·.number)) position with
        | none => Except.error ApiError.badIndex
        | some dstNewPayload =>
          match reuse_text_field_multi src.texts dst.texts position
              (pages.map (·.number)) (dst.texts.length + pages.length) with
          | none => Except.error ApiError.badIndex
          | some streams =>
            Except.ok
              ⟨⟨srcNewPayload, stf.1, stf.2⟩, dstNewPayload,
                pages.map (fun p => (p.number, (p.number : Int) + position)),
                streams, String.intercalate " " streams⟩

/-- The raw body of a move-to-document request: page ids, destination
document id, and the optional `position` field. -/
structure MoveToDocRequest where
  pages : List String
  dst : String
  position : Option Int
deriving DecidableEq, Repr

/-- The validated data of a move-to-document request. -/
structure MoveToDocValidated where
  pages : List String
  dst : String
  position : Int
deriving DecidableEq, Repr

/-- `PagesMoveToDocumentSerializer` (`serializers/page.py` lines 65-72):
`position = IntegerField(default=-1)` — an omitted position is not an error
and is filled in as `-1`; `dst` is a `CharField(max_length=32)`. -/
def validateMoveToDocument (r : MoveToDocRequest) :
    Except ApiError MoveToDocValidated :=
  if r.dst.length ≤ 32 then
    Except.ok ⟨r.pages, r.dst, r.position.getD (-1)⟩
  else Except.error ApiError.invalidRequest

/-- Claim-side description of the delete text channel: the surviving page
numbers, in ascending order, each mapped to the text their page carried in
the old version. -/
def survivingTexts (texts : List String) (deleted : List Nat) : List String :=
  ((List.range' 1 texts.length).filter (fun n => decide (n ∉ deleted))).map
    (fun n => (texts[n - 1]?).getD "")

theorem survivorsFrom_nil (k : Nat) (pdf : List α) :
    survivorsFrom [] k pdf = pdf := by
  induction pdf generalizing k with
  | nil => rfl
  | cons a tl ih => simp [survivorsFrom, ih]

theorem survivorsFrom_cons_of_lt (tl : List α) (k n : Nat) (rest : List Nat)
    (h : n < k) : survivorsFrom (n :: rest) k tl = survivorsFrom rest k tl := by
  induction tl generalizing k with
  | nil => rfl
  | cons a tl ih =>
    have hkn : k ≠ n := by omega
    simp only [survivorsFrom, List.mem_cons, hkn, false_or]
    by_cases hmem : k ∈ rest
    · simp [hmem, ih (k + 1) (by omega)]
    · simp [hmem, ih (k + 1) (by omega)]

theorem survivorsFrom_step (pdf : List α) (k n : Nat) (rest : List Nat)
    (hkn : k ≤ n) (hrest : ∀ m ∈ rest, n < m) (hlen : n + 1 ≤ pdf.length + k) :
    survivorsFrom (n :: rest) k pdf
      = survivorsFrom rest (k + 1) (pdf.take (n - k) ++ pdf.drop (n - k + 1)) := by
  induction pdf generalizing k with
  | nil =>
    exfalso
    simp at hlen
    omega
  | cons a tl ih =>
    by_cases hk : k = n
    · subst hk
      have h0 : k - k = 0 := Nat.sub_self k
      simp only [h0, List.take_zero, List.drop_succ_cons, List.drop_zero,
        List.nil_append]
      have : survivorsFrom (k :: rest) k (a :: tl)
          = survivorsFrom (k :: rest) (k + 1) tl := by
        simp [survivorsFrom]
      rw [this, survivorsFrom_cons_of_lt tl (k + 1) k rest (Nat.lt_succ_self k)]
    · have hklt : k < n := Nat.lt_of_le_of_ne hkn hk
      obtain ⟨d, hd⟩ : ∃ d, n - k = d + 1 := ⟨n - k - 1, by omega⟩
      have hd' : n - (k + 1) = d := by omega
      have hd'' : n - (k + 1) + 1 = d + 1 := by omega
      have hnotmem : k ∉ n :: rest := by
        intro hc
        rcases List.mem_cons.mp hc with h | h
        · omega
        · exact absurd (hrest k h) (by omega)
      have hnotmem' : k + 1 ∉ rest := by
        intro hc
        exact absurd (hrest (k + 1) hc) (by omega)
      simp only [hd, List.take_succ_cons, List.drop_succ_cons, List.cons_append]
      simp only [survivorsFrom, if_neg hnotmem, if_neg hnotmem']
      have := ih (k + 1) (by omega)
      rw [hd'] at this
      rw [this (by simp at hlen ⊢; omega)]

theorem removePdfPagesFrom_spec (nums : List Nat) :
    ∀ (pdf : List α) (c : Nat), List.Pairwise (· < ·) nums →
      (∀ n ∈ nums, c < n) → (∀ n ∈ nums, n ≤ pdf.length + c) →
      removePdfPagesFrom pdf nums c = some (survivorsFrom nums (c + 1) pdf) := by
  induction nums with
  | nil =>
    intro pdf c _ _ _
    simp [removePdfPagesFrom, survivorsFrom_nil]
  | cons n rest ih =>
    intro pdf c hpw hlo hhi
    have hcn : c < n := hlo n (List.mem_cons_self n rest)
    have hnlen : n ≤ pdf.length + c := hhi n (List.mem_cons_self n rest)
    have hrest : ∀ m ∈ rest, n < m := (List.pairwise_cons.mp hpw).1
    have hvalid : 1 ≤ n - c ∧ n - c ≤ pdf.length := by omega
    have hro : removeOne pdf (n - c)
        = some (pdf.take (n - c - 1) ++ pdf.drop (n - c)) := by
      simp [removeOne, hvalid]
    have hlen2 : (pdf.take (n - c - 1) ++ pdf.drop (n - c)).length
        = pdf.length - 1 := by
      simp [List.length_take, List.length_drop]
      omega
    simp only [removePdfPagesFrom, hro]
    rw [ih (pdf.take (n - c - 1) ++ pdf.drop (n - c)) (c + 1)
      (List.pairwise_cons.mp hpw).2
      (fun m hm => by have := hrest m hm; omega)
      (fun m hm => by have := hrest m hm; have := hhi m (List.mem_cons_of_mem n hm); omega)]
    have hidx1 : n - c - 1 = n - (c + 1) := by omega
    have hidx2 : n - c = n - (c + 1) + 1 := by omega
    rw [hidx1, hidx2,
      ← survivorsFrom_step pdf (c + 1) n rest (by omega) hrest (by omega)]

theorem removePdfPagesFrom_length (nums : List Nat) :
    ∀ (pdf out : List α) (c : Nat),
      removePdfPagesFrom pdf nums c = some out →
      out.length + nums.length = pdf.length := by
  induction nums with
  | nil =>
    intro pdf out c h
    simp [removePdfPagesFrom] at h
    simp [← h]
  | cons n rest ih =>
    intro pdf out c h
    simp only [removePdfPagesFrom] at h
    cases hro : removeOne pdf (n - c) with
    | none => rw [hro] at h; exact absurd h (by simp)
    | some pdf2 =>
      rw [hro] at h
      have hlen : pdf2.length + 1 = pdf.length := by
        simp only [removeOne] at hro
        by_cases hcond : 1 ≤ n - c ∧ n - c ≤ pdf.length
        · rw [if_pos hcond] at hro
          have := hro
          simp at this
          rw [← this]
          simp [List.length_take, List.length_drop]
          omega
        · rw [if_neg hcond] at hro; exact absurd hro (by simp)
      have := ih pdf2 out (c + 1) h
      simp at this ⊢
      omega

theorem collect_text_streams_spec (texts : List String) (nums : List Nat)
    (h : ∀ n ∈ nums, 1 ≤ n ∧ n ≤ texts.length) :
    collect_text_streams texts nums
      = some (nums.map (fun n => (texts[n - 1]?).getD "")) := by
  induction nums with
  | nil => rfl
  | cons n rest ih =>
    obtain ⟨h1, h2⟩ := h n (List.mem_cons_self n rest)
    obtain ⟨m, rfl⟩ : ∃ m, n = m + 1 := ⟨n - 1, by omega⟩
    have hm : m < texts.length := by omega
    obtain ⟨t, ht⟩ : ∃ t, texts[m]? = some t :=
      ⟨texts[m], List.getElem?_eq_getElem hm⟩
    simp only [collect_text_streams,
      ih (fun x hx => h x (List.mem_cons_of_mem _ hx)), ht]
    simp [ht]

theorem filter_not_mem_length (total : Nat) (nums : List Nat)
    (hpw : List.Pairwise (· < ·) nums)
    (hin : ∀ n ∈ nums, 1 ≤ n ∧ n ≤ total) :
    ((List.range' 1 total).filter (fun n => decide (n ∉ nums))).length
      = total - nums.length := by
  have hnd : nums.Nodup := hpw.imp (fun h => Nat.ne_of_lt h)
  have hndr : (List.range' 1 total).Nodup := List.nodup_range' 1 total
  have hperm : List.Perm
      ((List.range' 1 total).filter (fun n => decide (n ∈ nums))) nums := by
    refine (List.perm_ext_iff_of_nodup (hndr.filter _) hnd).mpr ?_
    intro a
    simp only [List.mem_filter, List.mem_range'_1, decide_eq_true_eq]
    constructor
    · exact fun h => h.2
    · intro ha
      exact ⟨by have := hin a ha; omega, ha⟩
  have hlen1 : ((List.range' 1 total).filter (fun n => decide (n ∈ nums))).length
      = nums.length := hperm.length_eq
  have hsplit := (List.filter_append_perm
    (fun n => decide (n ∈ nums)) (List.range' 1 total)).length_eq
  simp only [List.length_append] at hsplit
  have hcongr : (List.range' 1 total).filter (fun n => !decide (n ∈ nums))
      = (List.range' 1 total).filter (fun n => decide (n ∉ nums)) := by
    apply List.filter_congr
    intro x _
    simp
  rw [hcongr] at hsplit
  rw [List.length_range'] at hsplit
  omega

theorem mem_insertByNewNumber {it x : ReorderItem} {l : List ReorderItem}
    (h : it ∈ insertByNewNumber x l) : it = x ∨ it ∈ l := by
  induction l with
  | nil => simpa [insertByNewNumber] using h
  | cons y ys ih =>
    simp only [insertByNewNumber] at h
    by_cases hc : x.new_number ≤ y.new_number
    · rw [if_pos hc] at h
      rcases List.mem_cons.mp h with h | h
      · exact Or.inl h
      · exact Or.inr h
    · rw [if_neg hc] at h
      rcases List.mem_cons.mp h with h | h
      · exact Or.inr (h ▸ List.mem_cons_self y ys)
      · rcases ih h with h | h
        · exact Or.inl h
        · exact Or.inr (List.mem_cons_of_mem y h)

theorem mem_sortByNewNumber {it : ReorderItem} {l : List ReorderItem}
    (h : it ∈ sortByNewNumber l) : it ∈ l := by
  induction l with
  | nil => simp [sortByNewNumber] at h
  | cons x xs ih =>
    rcases mem_insertByNewNumber h with h | h
    · exact h ▸ List.mem_cons_self x xs
    · exact List.mem_cons_of_mem x (ih h)

theorem appendByMap_isSome (payload : List α) (l : List ReorderItem)
    (h : ∀ it ∈ l, 1 ≤ it.old_number ∧ it.old_number ≤ payload.length) :
    ∃ out, appendByMap payload l = some out := by
  induction l with
  | nil => exact ⟨[], rfl⟩
  | cons it rest ih =>
    obtain ⟨h1, h2⟩ := h it (List.mem_cons_self it rest)
    obtain ⟨m, hm⟩ : ∃ m, it.old_number = m + 1 := ⟨it.old_number - 1, by omega⟩
    have hmlt : m < payload.length := by omega
    obtain ⟨pg, hpg⟩ : ∃ pg, payload[m]? = some pg :=
      ⟨payload[m], List.getElem?_eq_getElem hmlt⟩
    obtain ⟨acc, hacc⟩ := ih (fun x hx => h x (List.mem_cons_of_mem _ hx))
    refine ⟨pg :: acc, ?_⟩
    simp [appendByMap, hm, hpg, hacc]

theorem rotate_pdf_pages_spec (items : List RotateItem) :
    ∀ (payload r : List PdfPage), rotate_pdf_pages payload items = some r →
      r.length = payload.length
      ∧ (∀ j : Nat, (r[j]?).map PdfPage.content
          = (payload[j]?).map PdfPage.content)
      ∧ (∀ j : Nat, (j + 1) ∉ items.map RotateItem.number →
          r[j]? = payload[j]?) := by
  induction items with
  | nil =>
    intro payload r h
    simp [rotate_pdf_pages] at h
    subst h
    exact ⟨rfl, fun _ => rfl, fun _ _ => rfl⟩
  | cons it rest ih =>
    intro payload r h
    simp only [rotate_pdf_pages] at h
    by_cases h0 : it.number = 0
    · rw [if_pos h0] at h; exact absurd h (by simp)
    rw [if_neg h0] at h
    set m := it.number - 1 with hm
    cases hpg : payload[m]? with
    | none => rw [hpg] at h; exact absurd h (by simp)
    | some pg =>
      rw [hpg] at h
      have hmlt : m < payload.length := by
        by_contra hc
        rw [List.getElem?_eq_none (by omega)] at hpg
        exact absurd hpg (by simp)
      set payload' := payload.set m ⟨pg.content, pg.rotation + it.angle⟩
        with hp'
      obtain ⟨hlen, hcontent, huntouched⟩ := ih payload' r h
      refine ⟨by rw [hlen, hp', List.length_set], ?_, ?_⟩
      · intro j
        rw [hcontent j]
        by_cases hj : j = m
        · subst hj
          rw [hp', List.getElem?_set_eq_of_lt _ hmlt, hpg]
          rfl
        · rw [hp', List.getElem?_set_ne (by omega)]
      · intro j hnot
        have hj : j ≠ m := by
          intro hc
          apply hnot
          have : it.number = j + 1 := by omega
          simp [List.mem_cons, this]
        rw [huntouched j (fun hc => hnot
            (by simp only [List.map_cons, List.mem_cons]; exact Or.inr hc)),
          hp', List.getElem?_set_ne (by omega)]

theorem rotate_pdf_pages_isSome (items : List RotateItem) :
    ∀ payload : List PdfPage,
      (∀ it ∈ items, 1 ≤ it.number ∧ it.number ≤ payload.length) →
      ∃ out, rotate_pdf_pages payload items = some out := by
  induction items with
  | nil => exact fun payload _ => ⟨payload, rfl⟩
  | cons it rest ih =>
    intro payload h
    obtain ⟨h1, h2⟩ := h it (List.mem_cons_self it rest)
    have hmlt : it.number - 1 < payload.length := by omega
    obtain ⟨pg, hpg⟩ : ∃ pg, payload[it.number - 1]? = some pg :=
      ⟨payload[it.number - 1], List.getElem?_eq_getElem hmlt⟩
    obtain ⟨out, hout⟩ := ih
      (payload.set (it.number - 1) ⟨pg.content, pg.rotation + it.angle⟩)
      (fun x hx => by
        have := h x (List.mem_cons_of_mem _ hx)
        simpa [List.length_set] using this)
    refine ⟨out, ?_⟩
    simp only [rotate_pdf_pages, if_neg (by omega : ¬it.number = 0), hpg]
    exact hout

theorem mem_range'_bounds {n total : Nat} (h : n ∈ List.range' 1 total) :
    1 ≤ n ∧ n ≤ total := by
  rw [List.mem_range'_1] at h
  omega

theorem map_range'_getD (l : List String) :
    (List.range' 1 l.length).map (fun n => (l[n - 1]?).getD "") = l := by
  apply List.ext_getElem?
  intro i
  rw [List.getElem?_map]
  by_cases hi : i < l.length
  · rw [List.getElem?_range' 1 1 hi]
    have h1 : 1 + 1 * i - 1 = i := by omega
    rw [Option.map_some', h1, List.getElem?_eq_getElem hi]
    simp
  · rw [List.getElem?_eq_none (by rw [List.length_range']; omega),
      Option.map_none', List.getElem?_eq_none (by omega)]

theorem reuse_text_field_delete_spec (texts : List String) (nums : List Nat)
    (hsorted : List.Pairwise (· < ·) nums)
    (hbounds : ∀ n ∈ nums, 1 ≤ n ∧ n ≤ texts.length) :
    reuse_text_field texts (get_assigns_after_delete texts.length nums)
      = some (survivingTexts texts nums,
          String.intercalate " " (survivingTexts texts nums))
    ∧ (survivingTexts texts nums).length = texts.length - nums.length := by
  set survivors := (List.range' 1 texts.length).filter
    (fun n => decide (n ∉ nums)) with hs
  have hmap : (get_assigns_after_delete texts.length nums).map (·.2)
      = survivors := by
    simp only [get_assigns_after_delete, ← hs]
    exact List.map_snd_zip _ _ (by rw [List.length_range'])
  have hbound : ∀ n ∈ survivors, 1 ≤ n ∧ n ≤ texts.length := by
    intro n hn
    rw [hs, List.mem_filter] at hn
    exact mem_range'_bounds hn.1
  have hcollect := collect_text_streams_spec texts survivors hbound
  constructor
  · simp only [reuse_text_field, hmap, hcollect, Option.map_some']
    rfl
  · simp only [survivingTexts, List.length_map]
    exact filter_not_mem_length texts.length nums hsorted hbounds

theorem rotate_identity_text (texts : List String) :
    reuse_text_field texts ((List.range' 1 texts.length).map (fun n => (n, n)))
      = some (texts, String.intercalate " " texts) := by
  have hmap : (((List.range' 1 texts.length).map (fun n => (n, n))).map (·.2))
      = List.range' 1 texts.length := by
    rw [List.map_map]
    exact List.map_id' (List.range' 1 texts.length)
  have hcollect := collect_text_streams_spec texts (List.range' 1 texts.length)
    (fun n hn => mem_range'_bounds hn)
  simp only [reuse_text_field, hmap, hcollect, Option.map_some',
    map_range'_getD]
  rfl

theorem singlePagedDocs_spec (texts : List String) (pages : List Pg)
    (h : ∀ p ∈ pages, 1 ≤ p.number ∧ p.number ≤ texts.length) :
    singlePagedDocs texts pages
      = some (pages.map (fun p => [(texts[p.number - 1]?).getD ""])) := by
  induction pages with
  | nil => rfl
  | cons p rest ih =>
    have hc := collect_text_streams_spec texts [p.number]
      (fun n hn => by
        rw [List.mem_singleton] at hn
        exact hn ▸ h p (List.mem_cons_self p rest))
    simp only [singlePagedDocs, hc,
      ih (fun x hx => h x (List.mem_cons_of_mem _ hx))]
    simp

/-- C1: evaluation of `move_to_document` at the failing input — source texts
["s1","s2","s3"], moved pages 1 and 2, destination texts ["d1","d2","d3"],
position 1.  The claim requires per-page text replicated over three
destination sub-ranges — ["d1"] then ["s1","s2"] then ["d2","d3"], five
streams — and artifacts for positions 2..3 mapped from the source's old
version.  The code gathers only four streams, sourcing position 3 from the
destination's old page 1 (the middle range `range(position + 1,
pages.count() + 1)` truncates the zip), and its artifact map [(1,2),(2,3)]
copies from the destination's old version. -/
theorem c1_move_to_document_three_subrange_replication_bug :
    move_to_document ⟨[⟨"A", 0⟩, ⟨"B", 0⟩, ⟨"C", 0⟩], ["s1", "s2", "s3"]⟩
        ⟨[⟨"X", 0⟩, ⟨"Y", 0⟩, ⟨"Z", 0⟩], ["d1", "d2", "d3"]⟩
        [⟨1, false⟩, ⟨2, false⟩] 1
      = Except.ok
          ⟨⟨[⟨"C", 0⟩], ["s3"], "s3"⟩,
            [⟨"X", 0⟩, ⟨"A", 0⟩, ⟨"B", 0⟩, ⟨"Y", 0⟩, ⟨"Z", 0⟩],
            [(1, 2), (2, 3)],
            ["d1", "s1", "d1", "d2"], "d1 s1 d1 d2"⟩
    ∧ (["d1", "s1", "d1", "d2"] : List String)
        ≠ ["d1", "s1", "s2", "d2", "d3"] :=
  ⟨rfl, by decide⟩

/-- C2 counterexample: a rotate request targeting a page of an archived
version is not rejected — the flow succeeds and produces a new version, so
an edit of an archived page does not fail with the archived-edit error. -/
theorem c2_rotate_archived_page_not_rejected :
    rotate_pages ⟨[⟨"a", 0⟩], ["t"]⟩ [⟨1, 90, true⟩]
      = Except.ok ⟨[⟨"a", 90⟩], ["t"], "t"⟩ := rfl

/-- C2 (amended): only the delete family validates against archived
versions: `delete_pages` and `perform_destroy` reject with the archived-page
error as soon as any targeted page is archived, before any write, while
`rotate_pages`, `reorder_pages`, `move_to_folder` and `move_to_document`
never reject with that error whatever the targeted pages' archived state. -/
theorem c2_only_delete_family_checks_archived :
    (∀ (old : VersionState) (pages : List Pg),
        pages.any (·.isArchived) = true →
        delete_pages old pages = Except.error ApiError.archivedPage)
    ∧ (∀ (old : VersionState) (page : Pg), page.isArchived = true →
        perform_destroy old page = Except.error ApiError.archivedPage)
    ∧ (∀ (old : VersionState) (items : List RotateItem),
        rotate_pages old items ≠ Except.error ApiError.archivedPage)
    ∧ (∀ (old : VersionState) (pagesData : List ReorderItem),
        reorder_pages old pagesData ≠ Except.error ApiError.archivedPage)
    ∧ (∀ (src : VersionState) (pages : List Pg) (singlePage : Bool),
        move_to_folder src pages singlePage
          ≠ Except.error ApiError.archivedPage)
    ∧ (∀ (src dst : VersionState) (pages : List Pg) (position : Int),
        move_to_document src dst pages position
          ≠ Except.error ApiError.archivedPage) := by
  refine ⟨?_, ?_, ?_, ?_, ?_, ?_⟩
  · intro old pages h
    simp [delete_pages, h]
  · intro old page h
    simp [perform_destroy, h]
  · intro old items h
    unfold rotate_pages at h
    split at h
    · simp at h
    · split at h
      · simp at h
      · split at h <;> simp at h
  · intro old pagesData h
    unfold reorder_pages at h
    split at h
    · simp at h
    · split at h <;> simp at h
  · intro src pages singlePage h
    unfold move_to_folder at h
    split at h
    · simp at h
    · split at h
      · simp at h
      · split at h
        · simp at h
        · split at h
          · split at h <;> simp at h
          · split at h <;> simp at h
  · intro src dst pages position h
    unfold move_to_document at h
    split at h
    · simp at h
    · split at h
      · simp at h
      · split at h
        · simp at h
        · split at h
          · simp at h
          · split at h <;> simp at h

theorem c2_only_delete_family_checks_archived_witness :
    delete_pages ⟨[⟨"a", 0⟩, ⟨"b", 0⟩], ["t1", "t2"]⟩ [⟨1, true⟩]
        = Except.error ApiError.archivedPage
    ∧ perform_destroy ⟨[⟨"a", 0⟩], ["t1"]⟩ ⟨1, true⟩
        = Except.error ApiError.archivedPage
    ∧ rotate_pages ⟨[⟨"a", 0⟩], ["t1"]⟩ [⟨1, 90, true⟩]
        ≠ Except.error ApiError.archivedPage :=
  ⟨c2_only_delete_family_checks_archived.1 _ _ rfl,
   c2_only_delete_family_checks_archived.2.1 _ _ rfl,
   c2_only_delete_family_checks_archived.2.2.1 _ _⟩

/-- C3 counterexample: deleting the only page of a one-page document through
the single-page endpoint is not rejected: `perform_destroy` succeeds and
produces a zero-page version. -/
theorem c3_single_page_delete_below_one_not_rejected :
    perform_destroy ⟨[⟨"only", 0⟩], ["only text"]⟩ ⟨1, false⟩
      = Except.ok ⟨[], [], ""⟩ := rfl

/-- C3 (amended): only the multi-page endpoint enforces the minimum page
count: `delete_pages` rejects, before any write, a delete that would leave
fewer than one page, while `perform_destroy` performs no such check and on a
one-page version produces a zero-page version. -/
theorem c3_only_multi_endpoint_enforces_min_page_count :
    (∀ (old : VersionState) (pages : List Pg),
        pages.any (·.isArchived) = false → pages ≠ [] →
        old.texts.length ≤ pages.length →
        delete_pages old pages = Except.error ApiError.tooFewPages)
    ∧ (∀ (pg : PdfPage) (t : String),
        perform_destroy ⟨[pg], [t]⟩ ⟨1, false⟩ = Except.ok ⟨[], [], ""⟩) := by
  constructor
  · intro old pages harch hne hcount
    have hempty : pages.isEmpty = false := by
      cases pages with
      | nil => exact absurd rfl hne
      | cons a l => rfl
    simp [delete_pages, harch, hempty, hcount]
  · intro pg t
    rfl

theorem c3_only_multi_endpoint_enforces_min_page_count_witness :
    delete_pages ⟨[⟨"a", 0⟩], ["t"]⟩ [⟨1, false⟩]
        = Except.error ApiError.tooFewPages
    ∧ perform_destroy ⟨[⟨"b", 0⟩], ["u"]⟩ ⟨1, false⟩
        = Except.ok ⟨[], [], ""⟩ :=
  ⟨c3_only_multi_endpoint_enforces_min_page_count.1 _ _ rfl (by decide)
      (by decide),
   c3_only_multi_endpoint_enforces_min_page_count.2 _ _⟩

/-- C4: a multi-page delete of current-version pages with at least one
survivor succeeds; the new version keeps exactly the surviving pages of the
payload in order, its page texts are the survivors' old texts re-associated
with their new positions (ascending survivor order), its aggregate text is
their single-space concatenation, and both payload and text list have length
old page_count minus the number of deleted pages. -/
theorem c4_delete_pages_text_reassociation
    (old : VersionState) (pages : List Pg)
    (harch : pages.any (·.isArchived) = false)
    (hne : pages ≠ [])
    (hsorted : List.Pairwise (· < ·) (pages.map (·.number)))
    (hbounds : ∀ p ∈ pages, 1 ≤ p.number ∧ p.number ≤ old.texts.length)
    (hcount : pages.length < old.texts.length)
    (hpay : old.payload.length = old.texts.length) :
    delete_pages old pages
      = Except.ok
          ⟨survivorsFrom (pages.map (·.number)) 1 old.payload,
            survivingTexts old.texts (pages.map (·.number)),
            String.intercalate " "
              (survivingTexts old.texts (pages.map (·.number)))⟩
    ∧ (survivorsFrom (pages.map (·.number)) 1 old.payload).length
        = old.texts.length - pages.length
    ∧ (survivingTexts old.texts (pages.map (·.number))).length
        = old.texts.length - pages.length := by
  have hnums_bounds : ∀ n ∈ pages.map (·.number),
      1 ≤ n ∧ n ≤ old.texts.length := by
    intro n hn
    rw [List.mem_map] at hn
    obtain ⟨p, hp, rfl⟩ := hn
    exact hbounds p hp
  have hremove : remove_pdf_pages old.payload (pages.map (·.number))
      = some (survivorsFrom (pages.map (·.number)) 1 old.payload) :=
    removePdfPagesFrom_spec _ old.payload 0 hsorted
      (fun n hn => by have := hnums_bounds n hn; omega)
      (fun n hn => by have := hnums_bounds n hn; omega)
  have hreuse := reuse_text_field_delete_spec old.texts (pages.map (·.number))
    hsorted hnums_bounds
  have hempty : pages.isEmpty = false := by
    cases pages with
    | nil => exact absurd rfl hne
    | cons a l => rfl
  have hlen : (survivorsFrom (pages.map (·.number)) 1 old.payload).length
      = old.texts.length - pages.length := by
    have hremove' : removePdfPagesFrom old.payload (pages.map (·.number)) 0
        = some (survivorsFrom (pages.map (·.number)) 1 old.payload) := hremove
    have := removePdfPagesFrom_length (pages.map (·.number)) old.payload
      (survivorsFrom (pages.map (·.number)) 1 old.payload) 0 hremove'
    rw [List.length_map] at this
    omega
  refine ⟨?_, hlen, by rw [hreuse.2, List.length_map]⟩
  simp [delete_pages, harch, hempty, Nat.not_le.mpr hcount, hremove, hreuse.1]

theorem c4_delete_pages_text_reassociation_witness :
    (delete_pages
        ⟨[⟨"p1", 0⟩, ⟨"p2", 0⟩, ⟨"p3", 0⟩], ["page 1", "page 2", "page 3"]⟩
        [⟨1, false⟩, ⟨2, false⟩]
      = Except.ok
          ⟨survivorsFrom [1, 2] 1
              ([⟨"p1", 0⟩, ⟨"p2", 0⟩, ⟨"p3", 0⟩] : List PdfPage),
            survivingTexts ["page 1", "page 2", "page 3"] [1, 2],
            String.intercalate " "
              (survivingTexts ["page 1", "page 2", "page 3"] [1, 2])⟩
      ∧ (survivorsFrom [1, 2] 1
          ([⟨"p1", 0⟩, ⟨"p2", 0⟩, ⟨"p3", 0⟩] : List PdfPage)).length = 1
      ∧ (survivingTexts ["page 1", "page 2", "page 3"] [1, 2]).length = 1)
    ∧ delete_pages
        ⟨[⟨"p1", 0⟩, ⟨"p2", 0⟩, ⟨"p3", 0⟩], ["page 1", "page 2", "page 3"]⟩
        [⟨1, false⟩, ⟨2, false⟩]
      = Except.ok ⟨[⟨"p3", 0⟩], ["page 3"], "page 3"⟩ :=
  ⟨c4_delete_pages_text_reassociation _ _ rfl (by decide) (by decide)
      (by decide) (by decide) rfl, rfl⟩

/-- C5 counterexample: the reorder assignment (1→1, 2→1) — duplicate
new_number 1, missing 2, for a two-page version — passes serializer
validation and is not rejected before the new version exists: the view
produces the new version's reordered payload; only the later text stage
reports the invalid permutation. -/
theorem c5_duplicate_new_numbers_not_rejected :
    pagesReorderSerializerValid [⟨"a", 1, 1⟩, ⟨"b", 2, 1⟩] = true
    ∧ reorder_pages ⟨[⟨"x", 0⟩, ⟨"y", 0⟩], ["t1", "t2"]⟩
        [⟨"a", 1, 1⟩, ⟨"b", 2, 1⟩]
      = Except.ok
          ⟨[⟨"x", 0⟩, ⟨"y", 0⟩], Except.error ApiError.invalidReorder⟩ :=
  ⟨rfl, rfl⟩

/-- C5 (amended): neither the serializer (structural only) nor the reorder
view validates that the new_number values form a permutation of
1..total_pages: for every assignment list whose old_numbers address existing
pages — permutation or not — the view succeeds, having already produced the
new version and its reordered payload; only the subsequent text-replication
stage (spec-modelled `get_reordered_list`) can reject. -/
theorem c5_reorder_no_permutation_validation
    (old : VersionState) (pagesData : List ReorderItem)
    (hne : pagesData ≠ [])
    (hold : ∀ it ∈ pagesData,
        1 ≤ it.old_number ∧ it.old_number ≤ old.payload.length) :
    ∃ outcome : ReorderOutcome,
      reorder_pages old pagesData = Except.ok outcome := by
  have hempty : pagesData.isEmpty = false := by
    cases pagesData with
    | nil => exact absurd rfl hne
    | cons a l => rfl
  obtain ⟨out, hout⟩ := appendByMap_isSome old.payload
    (sortByNewNumber pagesData)
    (fun it hit => hold it (mem_sortByNewNumber hit))
  have hout' : reorder_pdf_pages old.payload pagesData = some out := hout
  simp only [reorder_pages, hempty, Bool.false_eq_true, if_false, hout']
  exact ⟨_, rfl⟩

theorem c5_reorder_no_permutation_validation_witness :
    ∃ outcome : ReorderOutcome,
      reorder_pages ⟨[⟨"x", 0⟩, ⟨"y", 0⟩], ["t1", "t2"]⟩
          [⟨"a", 1, 1⟩, ⟨"b", 2, 1⟩]
        = Except.ok outcome :=
  c5_reorder_no_permutation_validation _ _ (by decide) (by decide)

/-- C6: each editor transform opens the old version's payload read-only and
writes only the new version's payload path: after a successful transform,
every other path of the store — in particular every archived version's
payload — holds byte-identical contents. -/
theorem c6_editors_write_only_new_version_path :
    (∀ (store : Store) (oldPath newPath : StorePath) (nums : List Nat)
        (st' : Store),
        remove_pdf_pages_io store oldPath newPath nums = some st' →
        ∀ p, p ≠ newPath → st' p = store p)
    ∧ (∀ (store : Store) (oldPath newPath : StorePath)
        (items : List RotateItem) (st' : Store),
        rotate_pdf_pages_io store oldPath newPath items = some st' →
        ∀ p, p ≠ newPath → st' p = store p)
    ∧ (∀ (store : Store) (oldPath newPath : StorePath)
        (pagesData : List ReorderItem) (st' : Store),
        reorder_pdf_pages_io store oldPath newPath pagesData = some st' →
        ∀ p, p ≠ newPath → st' p = store p)
    ∧ (∀ (store : Store) (srcPath dstOldPath dstNewPath : StorePath)
        (pageNumbers : List Nat) (position : Int) (st' : Store),
        insert_pdf_pages_io store srcPath dstOldPath dstNewPath
            pageNumbers position = some st' →
        ∀ p, p ≠ dstNewPath → st' p = store p) := by
  refine ⟨?_, ?_, ?_, ?_⟩
  · intro store oldPath newPath nums st' h p hp
    unfold remove_pdf_pages_io at h
    split at h
    · simp at h
    · split at h
      · simp at h
      · simp only [Option.some.injEq] at h
        rw [← h]
        simp [writeStore, hp]
  · intro store oldPath newPath items st' h p hp
    unfold rotate_pdf_pages_io at h
    split at h
    · simp at h
    · split at h
      · simp at h
      · simp only [Option.some.injEq] at h
        rw [← h]
        simp [writeStore, hp]
  · intro store oldPath newPath pagesData st' h p hp
    unfold reorder_pdf_pages_io at h
    split at h
    · simp at h
    · split at h
      · simp at h
      · simp only [Option.some.injEq] at h
        rw [← h]
        simp [writeStore, hp]
  · intro store srcPath dstOldPath dstNewPath pageNumbers position st' h p hp
    unfold insert_pdf_pages_io at h
    split at h
    · simp at h
    · split at h
      · simp at h
      · split at h
        · simp at h
        · simp only [Option.some.injEq] at h
          rw [← h]
          simp [writeStore, hp]

theorem c6_editors_write_only_new_version_path_witness :
    (writeStore (fun p => if p = 0 then some [⟨"a", 0⟩] else none) 1 []) 0
      = (fun p : StorePath => if p = 0 then some [⟨"a", 0⟩] else none) 0 :=
  c6_editors_write_only_new_version_path.1
    (fun p => if p = 0 then some [⟨"a", 0⟩] else none) 0 1 [1] _ rfl 0
    (by decide)

/-- C7: `move_to_folder` runs the delete flow on the source document and
then, with `single_page = true`, creates one new single-page document per
moved page, each carrying that page's text; with `single_page = false`,
creates exactly one new document holding all moved pages in their original
relative (ascending page-number) order, each page's text carried to its new
position. -/
theorem c7_move_to_folder_document_creation
    (src : VersionState) (pages : List Pg) (singlePage : Bool)
    (hne : pages ≠ [])
    (hsorted : List.Pairwise (· < ·) (pages.map (·.number)))
    (hbounds : ∀ p ∈ pages, 1 ≤ p.number ∧ p.number ≤ src.texts.length)
    (hpay : src.payload.length = src.texts.length) :
    move_to_folder src pages singlePage
      = Except.ok
          (⟨survivorsFrom (pages.map (·.number)) 1 src.payload,
             survivingTexts src.texts (pages.map (·.number)),
             String.intercalate " "
               (survivingTexts src.texts (pages.map (·.number)))⟩,
           if singlePage then
             pages.map (fun p => [(src.texts[p.number - 1]?).getD ""])
           else [pages.map (fun p => (src.texts[p.number - 1]?).getD "")]) := by
  have hnums_bounds : ∀ n ∈ pages.map (·.number),
      1 ≤ n ∧ n ≤ src.texts.length := by
    intro n hn
    rw [List.mem_map] at hn
    obtain ⟨p, hp, rfl⟩ := hn
    exact hbounds p hp
  have hremove : remove_pdf_pages src.payload (pages.map (·.number))
      = some (survivorsFrom (pages.map (·.number)) 1 src.payload) :=
    removePdfPagesFrom_spec _ src.payload 0 hsorted
      (fun n hn => by have := hnums_bounds n hn; omega)
      (fun n hn => by have := hnums_bounds n hn; omega)
  have hreuse := reuse_text_field_delete_spec src.texts (pages.map (·.number))
    hsorted hnums_bounds
  have hempty : pages.isEmpty = false := by
    cases pages with
    | nil => exact absurd rfl hne
    | cons a l => rfl
  cases singlePage with
  | true =>
    have hdocs := singlePagedDocs_spec src.texts pages hbounds
    simp [move_to_folder, hempty, hremove, hreuse.1, hdocs]
  | false =>
    have hcollect := collect_text_streams_spec src.texts
      (pages.map (·.number)) hnums_bounds
    simp [move_to_folder, hempty, hremove, hreuse.1, hcollect,
      List.map_map, Function.comp]

theorem c7_move_to_folder_document_creation_witness :
    move_to_folder ⟨[⟨"A", 0⟩, ⟨"B", 0⟩, ⟨"C", 0⟩], ["fish", "cat", "doc"]⟩
        [⟨2, false⟩, ⟨3, false⟩] true
      = Except.ok
          (⟨survivorsFrom [2, 3] 1
              ([⟨"A", 0⟩, ⟨"B", 0⟩, ⟨"C", 0⟩] : List PdfPage),
            survivingTexts ["fish", "cat", "doc"] [2, 3],
            String.intercalate " " (survivingTexts ["fish", "cat", "doc"] [2, 3])⟩,
           [["cat"], ["doc"]])
    ∧ move_to_folder ⟨[⟨"A", 0⟩, ⟨"B", 0⟩, ⟨"C", 0⟩], ["fish", "cat", "doc"]⟩
        [⟨2, false⟩, ⟨3, false⟩] false
      = Except.ok
          (⟨survivorsFrom [2, 3] 1
              ([⟨"A", 0⟩, ⟨"B", 0⟩, ⟨"C", 0⟩] : List PdfPage),
            survivingTexts ["fish", "cat", "doc"] [2, 3],
            String.intercalate " " (survivingTexts ["fish", "cat", "doc"] [2, 3])⟩,
           [["cat", "doc"]]) :=
  ⟨c7_move_to_folder_document_creation _ _ true (by decide) (by decide)
      (by decide) rfl,
   c7_move_to_folder_document_creation _ _ false (by decide) (by decide)
      (by decide) rfl⟩

/-- C8: rotation keeps page_count, per-page text at every position, and page
order: the flow succeeds with the old text list unchanged (the replication
page map is the identity), and the new payload has the same length, the same
content at every position, and unchanged entries at every page not listed in
the rotate request — only the rotation attribute of listed pages changes. -/
theorem c8_rotate_preserves_count_text_order
    (old : VersionState) (items : List RotateItem)
    (hne : items ≠ [])
    (hbounds : ∀ it ∈ items, 1 ≤ it.number ∧ it.number ≤ old.payload.length) :
    ∃ newPayload : List PdfPage,
      rotate_pages old items
        = Except.ok ⟨newPayload, old.texts, String.intercalate " " old.texts⟩
      ∧ newPayload.length = old.payload.length
      ∧ (∀ j : Nat, (newPayload[j]?).map PdfPage.content
          = (old.payload[j]?).map PdfPage.content)
      ∧ (∀ j : Nat, (j + 1) ∉ items.map RotateItem.number →
          newPayload[j]? = old.payload[j]?) := by
  have hempty : items.isEmpty = false := by
    cases items with
    | nil => exact absurd rfl hne
    | cons a l => rfl
  obtain ⟨out, hout⟩ := rotate_pdf_pages_isSome items old.payload hbounds
  obtain ⟨hlen, hcontent, huntouch⟩ :=
    rotate_pdf_pages_spec items old.payload out hout
  refine ⟨out, ?_, hlen, hcontent, huntouch⟩
  simp [rotate_pages, hempty, hout, rotate_identity_text]

theorem c8_rotate_preserves_count_text_order_witness :
    (∃ newPayload : List PdfPage,
      rotate_pages ⟨[⟨"a", 0⟩, ⟨"b", 0⟩], ["fish", "cat"]⟩ [⟨1, 90, false⟩]
        = Except.ok ⟨newPayload, ["fish", "cat"],
            String.intercalate " " ["fish", "cat"]⟩
      ∧ newPayload.length = 2
      ∧ (∀ j : Nat, (newPayload[j]?).map PdfPage.content
          = (([⟨"a", 0⟩, ⟨"b", 0⟩] : List PdfPage)[j]?).map PdfPage.content)
      ∧ (∀ j : Nat, (j + 1) ∉ [1] →
          newPayload[j]? = ([⟨"a", 0⟩, ⟨"b", 0⟩] : List PdfPage)[j]?))
    ∧ rotate_pages ⟨[⟨"a", 0⟩, ⟨"b", 0⟩], ["fish", "cat"]⟩ [⟨1, 90, false⟩]
        = Except.ok ⟨[⟨"a", 90⟩, ⟨"b", 0⟩], ["fish", "cat"], "fish cat"⟩ :=
  ⟨c8_rotate_preserves_count_text_order _ _ (by decide) (by decide), rfl⟩

/-- C9: for a selection of target pages given by their ascending 1-based
numbers in the old version, the remove transform — whose i-th removal
compensates by the i−1 pages already removed — strips exactly the pages at
those original positions: the result keeps precisely the pages at
non-selected positions, in their original relative order, and its length
drops by the number of selected pages. -/
theorem c9_remove_pdf_pages_strips_selected_positions {α : Type}
    (pdf : List α) (nums : List Nat)
    (hsorted : List.Pairwise (· < ·) nums)
    (hlo : ∀ n ∈ nums, 1 ≤ n) (hhi : ∀ n ∈ nums, n ≤ pdf.length) :
    remove_pdf_pages pdf nums = some (survivorsFrom nums 1 pdf)
    ∧ (survivorsFrom nums 1 pdf).length = pdf.length - nums.length := by
  have h1 : removePdfPagesFrom pdf nums 0
      = some (survivorsFrom nums (0 + 1) pdf) :=
    removePdfPagesFrom_spec nums pdf 0 hsorted
      (fun n hn => by have := hlo n hn; omega)
      (fun n hn => by have := hhi n hn; omega)
  have h2 := removePdfPagesFrom_length nums pdf
    (survivorsFrom nums (0 + 1) pdf) 0 h1
  simp only [Nat.zero_add] at h1 h2
  exact ⟨h1, by omega⟩

theorem c9_remove_pdf_pages_strips_selected_positions_witness :
    (remove_pdf_pages ([10, 20, 30, 40, 50] : List Nat) [3]
        = some (survivorsFrom [3] 1 [10, 20, 30, 40, 50])
      ∧ (survivorsFrom [3] 1 ([10, 20, 30, 40, 50] : List Nat)).length = 4)
    ∧ remove_pdf_pages ([10, 20, 30, 40, 50] : List Nat) [3]
        = some [10, 20, 40, 50] :=
  ⟨c9_remove_pdf_pages_strips_selected_positions [10, 20, 30, 40, 50] [3]
      (by decide) (by decide) (by decide), rfl⟩

/-- C10: a move-to-document request that omits `position` is not rejected:
validation fills in the default `-1`, and the flow then runs with position
`-1`, which is not "append at the end" — the binary insert places the first
moved page before the destination's last page and the second at the very
front, and the text-replication stage then raises (third-segment page
numbers run past the destination's old page count), so the whole flow ends
in an uncaught error rather than an append. -/
theorem c10_omitted_position_defaults_to_minus_one
    (r : MoveToDocRequest) (hpos : r.position = none)
    (hdst : r.dst.length ≤ 32) :
    validateMoveToDocument r = Except.ok ⟨r.pages, r.dst, -1⟩
    ∧ insert_pdf_pages ([⟨"A", 0⟩, ⟨"B", 0⟩, ⟨"C", 0⟩] : List PdfPage)
        [⟨"X", 0⟩, ⟨"Y", 0⟩, ⟨"Z", 0⟩] [1, 2] (-1)
      = some [⟨"B", 0⟩, ⟨"X", 0⟩, ⟨"Y", 0⟩, ⟨"A", 0⟩, ⟨"Z", 0⟩]
    ∧ insert_pdf_pages ([⟨"A", 0⟩, ⟨"B", 0⟩, ⟨"C", 0⟩] : List PdfPage)
        [⟨"X", 0⟩, ⟨"Y", 0⟩, ⟨"Z", 0⟩] [1, 2] (-1)
      ≠ some ([⟨"X", 0⟩, ⟨"Y", 0⟩, ⟨"Z", 0⟩] ++ [⟨"A", 0⟩, ⟨"B", 0⟩])
    ∧ move_to_document ⟨[⟨"A", 0⟩, ⟨"B", 0⟩, ⟨"C", 0⟩], ["s1", "s2", "s3"]⟩
        ⟨[⟨"X", 0⟩, ⟨"Y", 0⟩, ⟨"Z", 0⟩], ["d1", "d2", "d3"]⟩
        [⟨1, false⟩, ⟨2, false⟩] (-1)
      = Except.error ApiError.badIndex := by
  refine ⟨?_, rfl, by decide, rfl⟩
  simp [validateMoveToDocument, hdst, hpos]

theorem c10_omitted_position_defaults_to_minus_one_witness :
    validateMoveToDocument ⟨["pid1", "pid2"], "dstdoc", none⟩
        = Except.ok ⟨["pid1", "pid2"], "dstdoc", -1⟩
    ∧ insert_pdf_pages ([⟨"A", 0⟩, ⟨"B", 0⟩, ⟨"C", 0⟩] : List PdfPage)
        [⟨"X", 0⟩, ⟨"Y", 0⟩, ⟨"Z", 0⟩] [1, 2] (-1)
      = some [⟨"B", 0⟩, ⟨"X", 0⟩, ⟨"Y", 0⟩, ⟨"A", 0⟩, ⟨"Z", 0⟩]
    ∧ insert_pdf_pages ([⟨"A", 0⟩, ⟨"B", 0⟩, ⟨"C", 0⟩] : List PdfPage)
        [⟨"X", 0⟩, ⟨"Y", 0⟩, ⟨"Z", 0⟩] [1, 2] (-1)
      ≠ some ([⟨"X", 0⟩, ⟨"Y", 0⟩, ⟨"Z", 0⟩] ++ [⟨"A", 0⟩, ⟨"B", 0⟩])
    ∧ move_to_document ⟨[⟨"A", 0⟩, ⟨"B", 0⟩, ⟨"C", 0⟩], ["s1", "s2", "s3"]⟩
        ⟨[⟨"X", 0⟩, ⟨"Y", 0⟩, ⟨"Z", 0⟩], ["d1", "d2", "d3"]⟩
        [⟨1, false⟩, ⟨2, false⟩] (-1)
      = Except.error ApiError.badIndex :=
  c10_omitted_position_defaults_to_minus_one
    ⟨["pid1", "pid2"], "dstdoc", none⟩ rfl (by decide)

end Papermerge
